import Mathlib

/-!
Shallow embedding of the video-generation pipeline of anonthedev/ai-sdk-assignment.

The repository holds two near-duplicate variants of one script:
  * `src/backend/script.ts` — a CLI entry point whose `generateVideo` downloads the
    generated clips to `/tmp`, concatenates them with an `ffmpeg` subprocess when more
    than one was downloaded, and returns `{ videoPath, imagePath }`;
  * `src/unnamed/part_000` — an Express server whose `generateVideo` downloads the clips
    to `<cwd>/output` and returns `{ filePaths }` (no concatenation step), exposed through
    a single `POST /api/generate-video` endpoint.

External effects (LLM call, image call, video call, polling, HTTP downloads, file writes,
subprocess invocations) are reified as an event trace; the outcomes of the external calls
are supplied by an environment record, and the unbounded polling loop takes explicit fuel.
-/

namespace AiSdk

/-- Errors thrown by `generateVideo` (both variants), by their throw sites. -/
inductive GenError
  | narrationFailed
  | imageFailed
  | videoGenFailed
  | noDownloads
  | ffmpegFailed
  deriving DecidableEq, Repr

/-- Message string of each `throw new Error(...)` site; `ffmpegFailed` stands for the
rejection of `execAsync` when the subprocess exits nonzero (its message is produced by
Node, not by the repository code). -/
def GenError.message : GenError → String
  | .narrationFailed => "Failed to generate narration text"
  | .imageFailed => "Failed to generate image"
  | .videoGenFailed => "Video generation failed"
  | .noDownloads => "Failed to download any videos"
  | .ffmpegFailed => "ffmpeg exited with a nonzero status"

/-- Request record passed to `genAI.models.generateVideos`. -/
structure VideoRequest where
  model : String
  prompt : String
  imageBytes : String
  mimeType : String
  aspectRatio : String
  numberOfVideos : Nat
  deriving DecidableEq, Repr

/-- Payload of a file write, by provenance: the decoded base64 image buffer, the bytes
streamed from a clip download URI, or plain text (the ffmpeg concat list). -/
inductive FileData
  | image (base64 : String)
  | video (uri : String)
  | text (s : String)
  deriving DecidableEq, Repr

/-- External effects performed by the pipeline, in program order. -/
inductive Event
  | ensureDir (dir : String)
  | llmCall (model : String) (contents : List String)
  | imageCall (model : String) (prompt : String) (numberOfImages : Nat)
  | writeFile (path : String) (data : FileData)
  | videoCall (req : VideoRequest)
  | sleep (ms : Nat)
  | getOp
  | httpGet (uri : String)
  | execCmd (cmd : String)
  deriving DecidableEq, Repr

/-- Outcomes of the external services consumed by one `generateVideo` run.
`opDone k` is the `done` flag of the operation after `k` calls to
`getVideosOperation` (`opDone 0` is the flag of the operation returned by
`generateVideos`); `videos` is `op.response?.generatedVideos` with each entry's
`video?.uri`; `downloadOk i` tells whether downloading clip index `i` succeeds;
`time k` is the value of the `k`-th `Date.now()` call made after the LLM call. -/
structure GenEnv where
  narrationText : Option String
  imageBytes : Option String
  opDone : Nat → Bool
  videos : Option (List (Option String))
  downloadOk : Nat → Bool
  ffmpegOk : Bool
  time : Nat → Nat

/-- Temp directory of the CLI variant. -/
def TEMP_DIR : String := "/tmp"

/-- Output directory of the server variant, `path.join(process.cwd(), "output")`. -/
def OUTPUT_DIR (cwd : String) : String := cwd ++ "/output"

/-- Embeds `path.join(dir, filename)` for the simple two-component case used here. -/
def pathJoin (a b : String) : String := a ++ "/" ++ b

/-- Embeds `s.replace(/\x2a/g, "")`: a global single-character regex replacement by the
empty string removes every occurrence of that character. -/
def stripAsterisks (s : String) : String := String.mk (s.data.filter (fun c => c ≠ '*'))

/-- Embeds JS `String.prototype.trim`: removes leading and trailing whitespace. -/
def jsTrim (s : String) : String :=
  String.mk (((s.data.dropWhile Char.isWhitespace).reverse.dropWhile Char.isWhitespace).reverse)

/-- Embeds `narrationRes.text?.replace(/\x2a/g, "").trim()` applied to a present text. -/
def sanitize (s : String) : String := jsTrim (stripAsterisks s)

/-- Narration extraction and check: `const narration = text?.replace(...).trim();
if (!narration) throw new Error("Failed to generate narration text")`. A JS string is
falsy exactly when it is empty, and `text?.` propagates `undefined`. -/
def narrationStage (t : Option String) : Except GenError String :=
  match t with
  | none => .error .narrationFailed
  | some s =>
    let n := sanitize s
    if n = "" then .error .narrationFailed else .ok n

/-- Polling loop `while (!op.done) { sleep 10000; op = getVideosOperation(op) }`, with
fuel bounding the number of iterations the embedding is willing to unfold. `k` indexes
the operation value currently in hand; on termination it returns the emitted events and
the index of the first operation observed done. -/
def pollLoop (done : Nat → Bool) : Nat → Nat → Option (List Event × Nat)
  | 0, k => if done k then some ([], k) else none
  | fuel + 1, k =>
    if done k then some ([], k)
    else
      match pollLoop done fuel (k + 1) with
      | none => none
      | some (es, r) => some (Event.sleep 10000 :: Event.getOp :: es, r)

/-- Clip filename `` `${style}_video_${timestamp}_${i + 1}.mp4` ``. -/
def clipFilename (style : String) (t : Nat) (i : Nat) : String :=
  style ++ "_video_" ++ toString t ++ "_" ++ toString (i + 1) ++ ".mp4"

/-- Image filename `` `${style}_image_${Date.now()}.png` `` (CLI variant only). -/
def imageFilename (style : String) (t : Nat) : String :=
  style ++ "_image_" ++ toString t ++ ".png"

/-- Download loop over `videos` (lines 152-178 of script.ts, 144-171 of the server
variant): entries without a uri are skipped without consuming a `Date.now()` call; for
each entry with a uri a timestamped filename is formed and `downloadVideo` is attempted
once; a failed download is caught, logged and skipped, and the loop continues. Returns
the events, the successfully saved paths in order, and the advanced clock index. -/
def downloadClips (dlOk : Nat → Bool) (time : Nat → Nat) (dir style : String) :
    List (Option String) → Nat → Nat → List Event × List String × Nat
  | [], _, c => ([], [], c)
  | none :: rest, i, c => downloadClips dlOk time dir style rest (i + 1) c
  | some uri :: rest, i, c =>
    let t := time c
    let filePath := pathJoin dir (clipFilename style t i)
    let (es, ps, cEnd) := downloadClips dlOk time dir style rest (i + 1) (c + 1)
    if dlOk i then
      (Event.httpGet uri :: Event.writeFile filePath (FileData.video uri) :: es,
        filePath :: ps, cEnd)
    else
      (Event.httpGet uri :: es, ps, cEnd)

/-- Single quote character, used by the concat list lines `file '<path>'`. -/
def squote : String := String.singleton (Char.ofNat 39)

/-- Content of the ffmpeg concat list: `filePaths.map(p => ...).join("\n")`. -/
def concatListContent (ps : List String) : String :=
  String.intercalate "\n" (ps.map (fun p => "file " ++ squote ++ p ++ squote))

/-- Shell command `ffmpeg -f concat -safe 0 -i ${listPath} -c copy ${finalVideoPath}`. -/
def concatCmd (listPath finalPath : String) : String :=
  "ffmpeg -f concat -safe 0 -i " ++ listPath ++ " -c copy " ++ finalPath

/-- Finalization stage of the CLI variant (script.ts lines 184-215): with exactly one
downloaded clip its path is the final video and nothing further happens; otherwise the
concat list `` `${style}_concat_list.txt` `` is written and ffmpeg is invoked as a
subprocess producing `` `${style}_final_${Date.now()}.mp4` ``. `c` is the clock index at
entry; `ffmpegOk` tells whether `execAsync` resolves. -/
def finalizeVideo (time : Nat → Nat) (c : Nat) (ffmpegOk : Bool) (style : String)
    (ps : List String) : List Event × Except GenError String :=
  match ps with
  | [p] => ([], .ok p)
  | _ =>
    let listPath := pathJoin TEMP_DIR (style ++ "_concat_list.txt")
    let finalPath := pathJoin TEMP_DIR (style ++ "_final_" ++ toString (time c) ++ ".mp4")
    let es := [Event.writeFile listPath (FileData.text (concatListContent ps)),
               Event.execCmd (concatCmd listPath finalPath)]
    if ffmpegOk then (es, .ok finalPath) else (es, .error .ffmpegFailed)

/-- Return value of the CLI variant's `generateVideo`. -/
structure ScriptResult where
  videoPath : String
  imagePath : String
  deriving DecidableEq, Repr

/-- Return value of the server variant's `generateVideo`. -/
structure ServerResult where
  filePaths : List String
  deriving DecidableEq, Repr

/-- The CLI variant's `generateVideo` (script.ts lines 63-216): narration, image
generation and save, Veo video request, polling, clip downloads, and finalization.
Returns `none` when the polling fuel is exhausted before the operation is done (the
source loop would still be running); otherwise the full event trace paired with the
thrown error or the returned `{ videoPath, imagePath }`. -/
def generateVideoScript (env : GenEnv) (style narrationPrompt visualPrompt : String)
    (fuel : Nat) : Option (List Event × Except GenError ScriptResult) :=
  let pre0 := [Event.ensureDir TEMP_DIR,
               Event.llmCall "gemini-2.5-flash" [narrationPrompt]]
  match narrationStage env.narrationText with
  | .error e => some (pre0, .error e)
  | .ok narration =>
    let imgEv := Event.imageCall "imagen-3.0-generate-002" visualPrompt 1
    match env.imageBytes with
    | none => some (pre0 ++ [imgEv], .error .imageFailed)
    | some ib =>
      let imagePath := pathJoin TEMP_DIR (imageFilename style (env.time 0))
      let wImg := Event.writeFile imagePath (FileData.image ib)
      let req : VideoRequest :=
        ⟨"veo-2.0-generate-001", narration, ib, "image/png", "9:16", 2⟩
      let pre := pre0 ++ [imgEv, wImg, Event.videoCall req]
      match pollLoop env.opDone fuel 0 with
      | none => none
      | some (pes, _) =>
        match env.videos with
        | none => some (pre ++ pes, .error .videoGenFailed)
        | some [] => some (pre ++ pes, .error .videoGenFailed)
        | some vs =>
          let (des, ps, cEnd) := downloadClips env.downloadOk env.time TEMP_DIR style vs 0 1
          if ps = [] then some (pre ++ pes ++ des, .error .noDownloads)
          else
            let (fes, r) := finalizeVideo env.time cEnd env.ffmpegOk style ps
            some (pre ++ pes ++ des ++ fes,
                  r.map (fun fp => ScriptResult.mk fp imagePath))

/-- The server variant's `generateVideo` (part_000 lines 62-183): identical up to the
download loop, but the image is never saved to disk, downloads go to `OUTPUT_DIR`, and
the list of downloaded paths is returned as is — there is no concatenation stage. -/
def generateVideoServer (env : GenEnv) (cwd style narrationPrompt visualPrompt : String)
    (fuel : Nat) : Option (List Event × Except GenError ServerResult) :=
  let pre0 := [Event.ensureDir (OUTPUT_DIR cwd),
               Event.llmCall "gemini-2.5-flash" [narrationPrompt]]
  match narrationStage env.narrationText with
  | .error e => some (pre0, .error e)
  | .ok narration =>
    let imgEv := Event.imageCall "imagen-3.0-generate-002" visualPrompt 1
    match env.imageBytes with
    | none => some (pre0 ++ [imgEv], .error .imageFailed)
    | some ib =>
      let req : VideoRequest :=
        ⟨"veo-2.0-generate-001", narration, ib, "image/png", "9:16", 2⟩
      let pre := pre0 ++ [imgEv, Event.videoCall req]
      match pollLoop env.opDone fuel 0 with
      | none => none
      | some (pes, _) =>
        match env.videos with
        | none => some (pre ++ pes, .error .videoGenFailed)
        | some [] => some (pre ++ pes, .error .videoGenFailed)
        | some vs =>
          let (des, ps, _) := downloadClips env.downloadOk env.time (OUTPUT_DIR cwd) style vs 0 0
          if ps = [] then some (pre ++ pes ++ des, .error .noDownloads)
          else some (pre ++ pes ++ des, .ok (ServerResult.mk ps))

/-! ### HTTP endpoint (server variant) and CLI `main` -/

/-- JSON-ish value of `req.body.prompt`, with `undef` standing for a missing field. -/
inductive JsVal
  | undef
  | null
  | boolV (b : Bool)
  | numV (n : Int)
  | strV (s : String)
  deriving DecidableEq, Repr

/-- JS truthiness of a body value: `false`, `0`, the empty string, `null` and
`undefined` are falsy. -/
def JsVal.truthy : JsVal → Bool
  | .undef => false
  | .null => false
  | .boolV b => b
  | .numV n => n != 0
  | .strV s => s != ""

/-- Final output of the agent run as the endpoint sees it: either plain text (the agent
answered without running a generation tool) or the `{ filePaths }` object produced by
the server variant's `generateVideo`. -/
inductive AgentOutput
  | text (s : String)
  | files (r : ServerResult)
  deriving DecidableEq, Repr

/-- JS falsiness of `output`: `undefined` (modelled `none`) or the empty string. -/
def outputFalsy : Option AgentOutput → Bool
  | none => true
  | some (.text s) => s == ""
  | some (.files _) => false

/-- External effects of the request handler; running the triage agent subsumes every
generation call the pipeline makes. -/
inductive ApiEvent
  | runAgent (prompt : JsVal)
  deriving DecidableEq, Repr

/-- Response body: `res.json({ error })` or `res.json(output)`. -/
inductive RespBody
  | errorObj (msg : String)
  | jsonOut (out : AgentOutput)
  deriving DecidableEq, Repr

/-- HTTP response: status code and JSON body. -/
structure HttpResponse where
  status : Nat
  body : RespBody
  deriving DecidableEq, Repr

/-- Message attached to the 500 response: `error instanceof Error ? error.message :
"Failed to generate video"`. A thrown value is modelled as `some msg` for an `Error`
with that message and `none` for a non-`Error` value. -/
def caughtMessage : Option String → String
  | some m => m
  | none => "Failed to generate video"

/-- Handler of `POST /api/generate-video` (part_000 lines 293-327). `agentRun` is the
outcome of `await run(TriageAgent, prompt)` followed by `await result.finalOutput`:
`Except.error thrown` when it throws, otherwise the (possibly falsy) final output. -/
def handleGenerateVideo (prompt : JsVal)
    (agentRun : Except (Option String) (Option AgentOutput)) :
    List ApiEvent × HttpResponse :=
  if prompt.truthy = false then
    ([], HttpResponse.mk 400 (RespBody.errorObj "Prompt is required"))
  else
    match agentRun with
    | .error thrown =>
      ([ApiEvent.runAgent prompt], HttpResponse.mk 500 (RespBody.errorObj (caughtMessage thrown)))
    | .ok out =>
      if outputFalsy out then
        ([ApiEvent.runAgent prompt],
          HttpResponse.mk 500 (RespBody.errorObj "No output received from agent"))
      else
        match out with
        | some o => ([ApiEvent.runAgent prompt], HttpResponse.mk 200 (RespBody.jsonOut o))
        | none =>
          ([ApiEvent.runAgent prompt],
            HttpResponse.mk 500 (RespBody.errorObj "No output received from agent"))

/-- Routes registered on the Express app: the single `app.post` call (the `app.use`
calls install middleware, not routes). -/
def appRoutes : List (String × String) := [("POST", "/api/generate-video")]

/-- Final output of the agent run as the CLI `main` sees it. -/
inductive ScriptAgentOutput
  | text (s : String)
  | video (r : ScriptResult)
  deriving DecidableEq, Repr

/-- JS falsiness of the CLI agent output. -/
def scriptOutputFalsy : Option ScriptAgentOutput → Bool
  | none => true
  | some (.text s) => s == ""
  | some (.video _) => false

/-- Observable outcome of a `main` run: a `process.exit` call or a normal return. -/
inductive MainOutcome
  | exitCode (code : Nat)
  | normal
  deriving DecidableEq, Repr

/-- The CLI `main` (script.ts lines 322-365): exits 1 without running the agent when no
argument is given; otherwise any thrown error — including the rethrown "No output
received from agent" — is caught and ends in `process.exit(1)`; a truthy output is
printed and `main` returns normally. -/
def mainRun (argv2 : Option String)
    (agentRun : Except (Option String) (Option ScriptAgentOutput)) : MainOutcome :=
  match argv2 with
  | none => .exitCode 1
  | some _ =>
    match agentRun with
    | .error _ => .exitCode 1
    | .ok out =>
      if scriptOutputFalsy out then .exitCode 1 else .normal

/-! ### Trace observation helpers -/

/-- Subprocess invocations recorded in a trace. -/
def execCmds (tr : List Event) : List String :=
  tr.filterMap (fun e => match e with | .execCmd c => some c | _ => none)

/-- Video-generation requests recorded in a trace. -/
def videoCalls (tr : List Event) : List VideoRequest :=
  tr.filterMap (fun e => match e with | .videoCall r => some r | _ => none)

/-- LLM text-generation calls recorded in a trace. -/
def llmCalls (tr : List Event) : List (String × List String) :=
  tr.filterMap (fun e => match e with | .llmCall m cs => some (m, cs) | _ => none)

/-- Image-generation calls recorded in a trace. -/
def imageCalls (tr : List Event) : List (String × String × Nat) :=
  tr.filterMap (fun e => match e with | .imageCall m p n => some (m, p, n) | _ => none)

/-- HTTP download fetches recorded in a trace. -/
def httpGets (tr : List Event) : List String :=
  tr.filterMap (fun e => match e with | .httpGet u => some u | _ => none)

/-- Paths of the files the program itself writes in a trace. -/
def writePaths (tr : List Event) : List String :=
  tr.filterMap (fun e => match e with | .writeFile p _ => some p | _ => none)

/-- Sleep durations recorded in a trace, in milliseconds. -/
def sleeps (tr : List Event) : List Nat :=
  tr.filterMap (fun e => match e with | .sleep ms => some ms | _ => none)

/-- Number of `getVideosOperation` status checks recorded in a trace. -/
def getOpCount (tr : List Event) : Nat :=
  (tr.filter (fun e => match e with | .getOp => true | _ => false)).length

/-- Events a terminating polling loop of `n` iterations emits: a fixed 10-second sleep
then one status recheck, per iteration. -/
def pollTrace : Nat → List Event
  | 0 => []
  | n + 1 => Event.sleep 10000 :: Event.getOp :: pollTrace n

/-- Number of entries of `videos` that carry a uri. -/
def uriCount (vs : List (Option String)) : Nat :=
  (vs.filterMap id).length

/-- Indices of the clips whose entry carries a uri, i.e. the clips the download loop
attempts, starting the numbering at `i`. -/
def attemptedIdx : List (Option String) → Nat → List Nat
  | [], _ => []
  | none :: rest, i => attemptedIdx rest (i + 1)
  | some _ :: rest, i => i :: attemptedIdx rest (i + 1)

/-- Path of the saved still image in the CLI variant. -/
def imagePathOf (env : GenEnv) (style : String) : String :=
  pathJoin TEMP_DIR (imageFilename style (env.time 0))

/-- Path of the ffmpeg concat list in the CLI variant. -/
def concatListPath (style : String) : String :=
  pathJoin TEMP_DIR (style ++ "_concat_list.txt")

/-- Path of the concatenated final video in the CLI variant. -/
def finalVideoPath (style : String) (t : Nat) : String :=
  pathJoin TEMP_DIR (style ++ "_final_" ++ toString t ++ ".mp4")

/-- Whether the endpoint's `try` block fails: the agent run throws, or its final output
is falsy (which the handler turns into a thrown-and-caught error). -/
def apiFailed : Except (Option String) (Option AgentOutput) → Bool
  | .error _ => true
  | .ok out => outputFalsy out

/-- Whether the CLI `main`'s `try` block fails, analogously. -/
def cliFailed : Except (Option String) (Option ScriptAgentOutput) → Bool
  | .error _ => true
  | .ok out => scriptOutputFalsy out

/-- Predicate for a downloaded-clip path: some timestamp `t` and clip index `j` such
that the path is `dir/<style>_video_<t>_<j + 1>.mp4` (the timestamp is part of the
name). -/
def ClipPath (dir style q : String) : Prop :=
  ∃ t j, q = pathJoin dir (clipFilename style t j)

/-- Concrete environment: narration and image present, the operation done after one
poll, two clips with uris that both download, ffmpeg succeeds, clock frozen at 5. -/
def envTwoClips : GenEnv :=
  { narrationText := some "Go"
    imageBytes := some "QUJD"
    opDone := fun k => decide (1 ≤ k)
    videos := some [some "uA", some "uB"]
    downloadOk := fun _ => true
    ffmpegOk := true
    time := fun _ => 5 }

/-- Like `envTwoClips` but the service returns a single clip (fewer than requested). -/
def envOneClip : GenEnv := { envTwoClips with videos := some [some "uA"] }

/-- Like `envTwoClips` but downloading the first clip fails. -/
def envDropFirst : GenEnv := { envTwoClips with downloadOk := fun i => i != 0 }

/-- Like `envTwoClips` but every download fails. -/
def envAllFail : GenEnv := { envTwoClips with downloadOk := fun _ => false }

/-- Full event trace of the CLI run on `envTwoClips` with style `hype`, narration
prompt `n` and visual prompt `v`. -/
def twoClipTrace : List Event :=
  [Event.ensureDir "/tmp",
   Event.llmCall "gemini-2.5-flash" ["n"],
   Event.imageCall "imagen-3.0-generate-002" "v" 1,
   Event.writeFile "/tmp/hype_image_5.png" (FileData.image "QUJD"),
   Event.videoCall ⟨"veo-2.0-generate-001", "Go", "QUJD", "image/png", "9:16", 2⟩,
   Event.sleep 10000, Event.getOp,
   Event.httpGet "uA",
   Event.writeFile "/tmp/hype_video_5_1.mp4" (FileData.video "uA"),
   Event.httpGet "uB",
   Event.writeFile "/tmp/hype_video_5_2.mp4" (FileData.video "uB"),
   Event.writeFile "/tmp/hype_concat_list.txt"
     (FileData.text (concatListContent ["/tmp/hype_video_5_1.mp4", "/tmp/hype_video_5_2.mp4"])),
   Event.execCmd "ffmpeg -f concat -safe 0 -i /tmp/hype_concat_list.txt -c copy /tmp/hype_final_5.mp4"]

/-! ### Helper lemmas on the polling loop -/

theorem pollTrace_observables (n : Nat) :
    llmCalls (pollTrace n) = [] ∧ imageCalls (pollTrace n) = [] ∧
    videoCalls (pollTrace n) = [] ∧ execCmds (pollTrace n) = [] ∧
    writePaths (pollTrace n) = [] ∧ httpGets (pollTrace n) = [] ∧
    sleeps (pollTrace n) = List.replicate n 10000 ∧ getOpCount (pollTrace n) = n := by
  induction n with
  | zero =>
    simp [pollTrace, llmCalls, imageCalls, videoCalls, execCmds, writePaths, httpGets,
      sleeps, getOpCount]
  | succ n ih =>
    simpa [pollTrace, llmCalls, imageCalls, videoCalls, execCmds, writePaths, httpGets,
      sleeps, getOpCount, List.replicate_succ] using ih

theorem pollLoop_sound (done : Nat → Bool) :
    ∀ fuel k es r, pollLoop done fuel k = some (es, r) →
      done r = true ∧ k ≤ r ∧ es = pollTrace (r - k) ∧
      (∀ j, k ≤ j → j < r → done j = false) := by
  intro fuel
  induction fuel with
  | zero =>
    intro k es r h
    simp only [pollLoop] at h
    by_cases hk : done k = true
    · simp [hk] at h
      obtain ⟨hes, hr⟩ := h
      subst hr
      refine ⟨hk, le_refl _, by simp [hes, pollTrace], ?_⟩
      intro j h1 h2
      omega
    · simp [hk] at h
  | succ fuel ih =>
    intro k es r h
    simp only [pollLoop] at h
    by_cases hk : done k = true
    · simp [hk] at h
      obtain ⟨hes, hr⟩ := h
      subst hr
      refine ⟨hk, le_refl _, by simp [hes, pollTrace], ?_⟩
      intro j h1 h2
      omega
    · simp [hk] at h
      rcases hrec : pollLoop done fuel (k + 1) with _ | ⟨es2, r2⟩
      · rw [hrec] at h
        simp at h
      · rw [hrec] at h
        simp at h
        obtain ⟨hes, hr⟩ := h
        obtain ⟨hd, hle, hshape, hmin⟩ := ih (k + 1) es2 r2 hrec
        subst hr
        refine ⟨hd, by omega, ?_, ?_⟩
        · have : r2 - k = (r2 - (k + 1)) + 1 := by omega
          rw [this, ← hes, pollTrace, hshape]
        · intro j h1 h2
          rcases Nat.eq_or_lt_of_le h1 with h3 | h3
          · subst h3
            simpa using hk
          · exact hmin j h3 h2

theorem pollLoop_complete (done : Nat → Bool) :
    ∀ n k, done (k + n) = true → (pollLoop done n k).isSome = true := by
  intro n
  induction n with
  | zero =>
    intro k h
    simp only [Nat.add_zero] at h
    simp [pollLoop, h]
  | succ n ih =>
    intro k h
    by_cases hk : done k = true
    · simp [pollLoop, hk]
    · have h2 : done ((k + 1) + n) = true := by
        have : (k + 1) + n = k + (n + 1) := by omega
        rw [this]
        exact h
      have h3 := ih (k + 1) h2
      rcases hrec : pollLoop done n (k + 1) with _ | ⟨es, r⟩
      · rw [hrec] at h3
        simp at h3
      · simp [pollLoop, hk, hrec]

theorem pollLoop_exact (done : Nat → Bool) :
    ∀ fuel k, (∀ j, k ≤ j → (done j = true ↔ j = k + fuel)) →
      pollLoop done fuel k = some (pollTrace fuel, k + fuel) := by
  intro fuel
  induction fuel with
  | zero =>
    intro k h
    have hk : done k = true := by
      rw [h k (le_refl k)]
      omega
    simp [pollLoop, hk, pollTrace]
  | succ fuel ih =>
    intro k h
    have hk : done k = false := by
      rcases hc : done k with _ | _
      · rfl
      · have := (h k (le_refl k)).mp hc
        omega
    have hrec := ih (k + 1) (by
      intro j hj
      rw [h j (by omega)]
      omega)
    simp only [pollLoop, hk]
    rw [hrec]
    simp [pollTrace]
    omega

/-! ### Helper lemmas on the download loop -/

theorem downloadClips_noCalls (dlOk : Nat → Bool) (time : Nat → Nat) (dir style : String)
    (vs : List (Option String)) :
    ∀ i c, llmCalls (downloadClips dlOk time dir style vs i c).1 = [] ∧
      imageCalls (downloadClips dlOk time dir style vs i c).1 = [] ∧
      videoCalls (downloadClips dlOk time dir style vs i c).1 = [] ∧
      execCmds (downloadClips dlOk time dir style vs i c).1 = [] := by
  induction vs with
  | nil =>
    intro i c
    simp [downloadClips, llmCalls, imageCalls, videoCalls, execCmds]
  | cons hd tl ih =>
    intro i c
    cases hd with
    | none => simpa [downloadClips] using ih (i + 1) c
    | some uri =>
      have h := ih (i + 1) (c + 1)
      rcases hrec : downloadClips dlOk time dir style tl (i + 1) (c + 1) with ⟨es, ps, cEnd⟩
      rw [hrec] at h
      by_cases hok : dlOk i = true
      · simpa [downloadClips, hrec, hok, llmCalls, imageCalls, videoCalls, execCmds] using h
      · simp only [Bool.not_eq_true] at hok
        simpa [downloadClips, hrec, hok, llmCalls, imageCalls, videoCalls, execCmds] using h

theorem downloadClips_attempts (dlOk : Nat → Bool) (time : Nat → Nat) (dir style : String)
    (vs : List (Option String)) :
    ∀ i c, httpGets (downloadClips dlOk time dir style vs i c).1 = vs.filterMap id := by
  induction vs with
  | nil =>
    intro i c
    simp [downloadClips, httpGets]
  | cons hd tl ih =>
    intro i c
    cases hd with
    | none => simpa [downloadClips] using ih (i + 1) c
    | some uri =>
      have h := ih (i + 1) (c + 1)
      rcases hrec : downloadClips dlOk time dir style tl (i + 1) (c + 1) with ⟨es, ps, cEnd⟩
      rw [hrec] at h
      by_cases hok : dlOk i = true
      · simpa [downloadClips, hrec, hok, httpGets] using h
      · simp only [Bool.not_eq_true] at hok
        simpa [downloadClips, hrec, hok, httpGets] using h

theorem downloadClips_writes_eq_paths (dlOk : Nat → Bool) (time : Nat → Nat)
    (dir style : String) (vs : List (Option String)) :
    ∀ i c, writePaths (downloadClips dlOk time dir style vs i c).1 =
      (downloadClips dlOk time dir style vs i c).2.1 := by
  induction vs with
  | nil =>
    intro i c
    simp [downloadClips, writePaths]
  | cons hd tl ih =>
    intro i c
    cases hd with
    | none => simpa [downloadClips] using ih (i + 1) c
    | some uri =>
      have h := ih (i + 1) (c + 1)
      rcases hrec : downloadClips dlOk time dir style tl (i + 1) (c + 1) with ⟨es, ps, cEnd⟩
      rw [hrec] at h
      by_cases hok : dlOk i = true
      · simpa [downloadClips, hrec, hok, writePaths] using h
      · simp only [Bool.not_eq_true] at hok
        simpa [downloadClips, hrec, hok, writePaths] using h

theorem downloadClips_paths_shape (dlOk : Nat → Bool) (time : Nat → Nat)
    (dir style : String) (vs : List (Option String)) :
    ∀ i c q, q ∈ (downloadClips dlOk time dir style vs i c).2.1 →
      ∃ t j, q = pathJoin dir (clipFilename style t j) := by
  induction vs with
  | nil =>
    intro i c q hq
    simp [downloadClips] at hq
  | cons hd tl ih =>
    intro i c q hq
    cases hd with
    | none =>
      simp only [downloadClips] at hq
      exact ih (i + 1) c q hq
    | some uri =>
      rcases hrec : downloadClips dlOk time dir style tl (i + 1) (c + 1) with ⟨es, ps, cEnd⟩
      by_cases hok : dlOk i = true
      · simp only [downloadClips, hrec, hok, if_true] at hq
        rcases List.mem_cons.mp hq with h1 | h1
        · exact ⟨time c, i, h1⟩
        · have := ih (i + 1) (c + 1) q
          rw [hrec] at this
          exact this h1
      · simp only [Bool.not_eq_true] at hok
        simp only [downloadClips, hrec, hok, Bool.false_eq_true, if_false] at hq
        have := ih (i + 1) (c + 1) q
        rw [hrec] at this
        exact this hq

theorem downloadClips_success_count (dlOk : Nat → Bool) (time : Nat → Nat)
    (dir style : String) (vs : List (Option String)) :
    ∀ i c, (downloadClips dlOk time dir style vs i c).2.1.length =
      ((attemptedIdx vs i).filter dlOk).length := by
  induction vs with
  | nil =>
    intro i c
    simp [downloadClips, attemptedIdx]
  | cons hd tl ih =>
    intro i c
    cases hd with
    | none => simpa [downloadClips, attemptedIdx] using ih (i + 1) c
    | some uri =>
      have h := ih (i + 1) (c + 1)
      rcases hrec : downloadClips dlOk time dir style tl (i + 1) (c + 1) with ⟨es, ps, cEnd⟩
      rw [hrec] at h
      by_cases hok : dlOk i = true
      · simpa [downloadClips, hrec, hok, attemptedIdx, List.filter_cons] using h
      · simp only [Bool.not_eq_true] at hok
        simpa [downloadClips, hrec, hok, attemptedIdx, List.filter_cons] using h

/-! ### Helper lemmas on the finalization stage -/

theorem finalizeVideo_single (time : Nat → Nat) (c : Nat) (ffmpegOk : Bool)
    (style p : String) :
    finalizeVideo time c ffmpegOk style [p] = ([], .ok p) := rfl

theorem finalizeVideo_multi (time : Nat → Nat) (c : Nat) (ffmpegOk : Bool)
    (style p1 p2 : String) (rest : List String) :
    finalizeVideo time c ffmpegOk style (p1 :: p2 :: rest) =
      ([Event.writeFile (concatListPath style)
          (FileData.text (concatListContent (p1 :: p2 :: rest))),
        Event.execCmd (concatCmd (concatListPath style) (finalVideoPath style (time c)))],
       if ffmpegOk then .ok (finalVideoPath style (time c))
       else .error .ffmpegFailed) := by
  cases ffmpegOk <;> rfl

theorem finalizeVideo_noCalls (time : Nat → Nat) (c : Nat) (ffmpegOk : Bool)
    (style : String) (ps : List String) :
    llmCalls (finalizeVideo time c ffmpegOk style ps).1 = [] ∧
    imageCalls (finalizeVideo time c ffmpegOk style ps).1 = [] ∧
    videoCalls (finalizeVideo time c ffmpegOk style ps).1 = [] ∧
    httpGets (finalizeVideo time c ffmpegOk style ps).1 = [] := by
  rcases ps with _ | ⟨p1, _ | ⟨p2, rest⟩⟩
  · cases ffmpegOk <;>
      simp [finalizeVideo, llmCalls, imageCalls, videoCalls, httpGets]
  · simp [finalizeVideo_single, llmCalls, imageCalls, videoCalls, httpGets]
  · rw [finalizeVideo_multi]
    simp [llmCalls, imageCalls, videoCalls, httpGets]

theorem finalizeVideo_writes (time : Nat → Nat) (c : Nat) (ffmpegOk : Bool)
    (style : String) (ps : List String) :
    writePaths (finalizeVideo time c ffmpegOk style ps).1 = [] ∨
    writePaths (finalizeVideo time c ffmpegOk style ps).1 = [concatListPath style] := by
  rcases ps with _ | ⟨p1, _ | ⟨p2, rest⟩⟩
  · right
    cases ffmpegOk <;> simp [finalizeVideo, writePaths, concatListPath]
  · left
    simp [finalizeVideo_single, writePaths]
  · right
    rw [finalizeVideo_multi]
    simp [writePaths]

/-! ### Decomposition of a run that reaches the download stage -/

theorem script_run_decomp (env : GenEnv) (style np vp : String) (fuel : Nat)
    (nt ib : String) (pes : List Event) (k : Nat)
    (v : Option String) (vs : List (Option String))
    (des : List Event) (p : String) (ps : List String) (cEnd : Nat)
    (fes : List Event) (fr : Except GenError String)
    (h1 : env.narrationText = some nt)
    (h2 : ¬ sanitize nt = "")
    (h3 : env.imageBytes = some ib)
    (h4 : pollLoop env.opDone fuel 0 = some (pes, k))
    (h5 : env.videos = some (v :: vs))
    (h7 : downloadClips env.downloadOk env.time TEMP_DIR style (v :: vs) 0 1 =
      (des, p :: ps, cEnd))
    (h9 : finalizeVideo env.time cEnd env.ffmpegOk style (p :: ps) = (fes, fr)) :
    generateVideoScript env style np vp fuel =
      some (Event.ensureDir TEMP_DIR ::
            Event.llmCall "gemini-2.5-flash" [np] ::
            Event.imageCall "imagen-3.0-generate-002" vp 1 ::
            Event.writeFile (imagePathOf env style) (FileData.image ib) ::
            Event.videoCall ⟨"veo-2.0-generate-001", sanitize nt, ib, "image/png", "9:16", 2⟩ ::
            (pes ++ des ++ fes),
            fr.map (fun fp => ScriptResult.mk fp (imagePathOf env style))) := by
  simp only [generateVideoScript, h1, narrationStage, if_neg h2, h3, h4, h5, h7, h9,
    imagePathOf]
  simp

theorem server_run_decomp (env : GenEnv) (cwd style np vp : String) (fuel : Nat)
    (nt ib : String) (pes : List Event) (k : Nat)
    (v : Option String) (vs : List (Option String))
    (des : List Event) (ps : List String) (cEnd : Nat)
    (h1 : env.narrationText = some nt)
    (h2 : ¬ sanitize nt = "")
    (h3 : env.imageBytes = some ib)
    (h4 : pollLoop env.opDone fuel 0 = some (pes, k))
    (h5 : env.videos = some (v :: vs))
    (h7 : downloadClips env.downloadOk env.time (OUTPUT_DIR cwd) style (v :: vs) 0 0 =
      (des, ps, cEnd)) :
    generateVideoServer env cwd style np vp fuel =
      some (Event.ensureDir (OUTPUT_DIR cwd) ::
            Event.llmCall "gemini-2.5-flash" [np] ::
            Event.imageCall "imagen-3.0-generate-002" vp 1 ::
            Event.videoCall ⟨"veo-2.0-generate-001", sanitize nt, ib, "image/png", "9:16", 2⟩ ::
            (pes ++ des),
            if ps = [] then .error .noDownloads else .ok (ServerResult.mk ps)) := by
  simp only [generateVideoServer, h1, narrationStage, if_neg h2, h3, h4, h5, h7]
  by_cases hps : ps = []
  · simp [hps]
  · simp [hps]

/-! ### Claim theorems -/

/-- C1 counterexample: a run of the server variant's generation pipeline downloads two
clips, yet its trace holds no subprocess invocation at all and it returns both clip
paths rather than a single concatenated output — refuting the claim for "every run of
the generation pipeline". -/
theorem C1_counterexample :
    (generateVideoServer envTwoClips "/app" "hype" "n" "v" 3).map
        (fun pr => (execCmds pr.1, (pr.2.map ServerResult.filePaths).toOption)) =
      some ([], some ["/app/output/hype_video_5_1.mp4", "/app/output/hype_video_5_2.mp4"]) := by
  decide

/-- C1 (amended, CLI variant): in a run of script.ts's pipeline that reaches the
download stage with clips `p :: ps` saved, if exactly one clip was downloaded its path
is returned unchanged as the final video and no subprocess runs; if more than one was
downloaded, ffmpeg is invoked as a subprocess (the single `execCmd` of the whole trace)
and the concatenated output file's path is returned as the final video. -/
theorem C1_cli_stitching (env : GenEnv) (style np vp : String) (fuel : Nat)
    (nt ib : String) (pes : List Event) (k : Nat)
    (v : Option String) (vs : List (Option String))
    (des : List Event) (p : String) (ps : List String) (cEnd : Nat)
    (h1 : env.narrationText = some nt)
    (h2 : ¬ sanitize nt = "")
    (h3 : env.imageBytes = some ib)
    (h4 : pollLoop env.opDone fuel 0 = some (pes, k))
    (h5 : env.videos = some (v :: vs))
    (h7 : downloadClips env.downloadOk env.time TEMP_DIR style (v :: vs) 0 1 =
      (des, p :: ps, cEnd))
    (hff : env.ffmpegOk = true) :
    (ps = [] → ∃ tr, generateVideoScript env style np vp fuel =
        some (tr, .ok (ScriptResult.mk p (imagePathOf env style))) ∧
        execCmds tr = []) ∧
    (¬ ps = [] → ∃ tr, generateVideoScript env style np vp fuel =
        some (tr, .ok (ScriptResult.mk (finalVideoPath style (env.time cEnd))
          (imagePathOf env style))) ∧
        execCmds tr = [concatCmd (concatListPath style) (finalVideoPath style (env.time cEnd))]) := by
  have hpes : execCmds pes = [] := by
    obtain ⟨-, -, hshape, -⟩ := pollLoop_sound env.opDone fuel 0 pes k h4
    rw [hshape]
    exact (pollTrace_observables (k - 0)).2.2.2.1
  have hdes : execCmds des = [] := by
    have h := (downloadClips_noCalls env.downloadOk env.time TEMP_DIR style (v :: vs) 0 1).2.2.2
    rw [h7] at h
    exact h
  constructor
  · intro hps
    subst hps
    have hd := script_run_decomp env style np vp fuel nt ib pes k v vs des p [] cEnd
      [] (.ok p) h1 h2 h3 h4 h5 h7
      (finalizeVideo_single env.time cEnd env.ffmpegOk style p)
    refine ⟨_, hd, ?_⟩
    simp only [execCmds] at hpes hdes ⊢
    simp [hpes, hdes]
  · intro hps
    rcases ps with _ | ⟨p2, rest⟩
    · exact absurd rfl hps
    · have h9 : finalizeVideo env.time cEnd env.ffmpegOk style (p :: p2 :: rest) =
          ([Event.writeFile (concatListPath style)
              (FileData.text (concatListContent (p :: p2 :: rest))),
            Event.execCmd (concatCmd (concatListPath style)
              (finalVideoPath style (env.time cEnd)))],
           .ok (finalVideoPath style (env.time cEnd))) := by
        rw [finalizeVideo_multi, hff]
        simp
      have hd := script_run_decomp env style np vp fuel nt ib pes k v vs des p
        (p2 :: rest) cEnd _ _ h1 h2 h3 h4 h5 h7 h9
      refine ⟨_, hd, ?_⟩
      simp only [execCmds] at hpes hdes ⊢
      simp [hpes, hdes]

/-- C1 witness: on a concrete CLI run that downloads two clips, the trace's only
subprocess invocation is the ffmpeg concatenation and the returned final video is the
concatenated output file. -/
theorem C1_witness :
    (generateVideoScript envTwoClips "hype" "n" "v" 3).map
        (fun pr => (execCmds pr.1, pr.2.toOption)) =
      some ([concatCmd (concatListPath "hype") (finalVideoPath "hype" 5)],
        some (ScriptResult.mk "/tmp/hype_final_5.mp4" "/tmp/hype_image_5.png")) := by
  obtain ⟨tr, htr, hexec⟩ := (C1_cli_stitching envTwoClips "hype" "n" "v" 3 "Go" "QUJD"
      (pollTrace 1) 1 (some "uA") [some "uB"]
      [Event.httpGet "uA", Event.writeFile "/tmp/hype_video_5_1.mp4" (FileData.video "uA"),
       Event.httpGet "uB", Event.writeFile "/tmp/hype_video_5_2.mp4" (FileData.video "uB")]
      "/tmp/hype_video_5_1.mp4" ["/tmp/hype_video_5_2.mp4"] 3
      rfl (by decide) rfl (by decide) rfl (by decide) rfl).2 (by simp)
  rw [htr]
  simp only [Option.map, hexec]
  decide

/-- C2 counterexample: a pipeline run in which downloading the first clip fails (its
fetch appears in the trace but no file is saved) still returns success with the second
clip's path, and the endpoint then answers 200 — a failure that produces neither a 500
response nor a process exit, absorbed after being caught and logged. -/
theorem C2_counterexample :
    (generateVideoServer envDropFirst "/app" "hype" "n" "v" 3).map
        (fun pr => (httpGets pr.1, (pr.2.map ServerResult.filePaths).toOption)) =
      some (["uA", "uB"], some ["/app/output/hype_video_5_2.mp4"]) ∧
    (handleGenerateVideo (JsVal.strV "go")
        (.ok (some (AgentOutput.files
          (ServerResult.mk ["/app/output/hype_video_5_2.mp4"]))))).2.status = 200 := by
  exact ⟨by decide, rfl⟩

/-- C2 (amended): apart from individual clip-download failures (caught, logged and
skipped inside the download loop), every failure surfaces as a generic HTTP 500
response on the endpoint — a truthy-prompt request gets status 500 exactly when the
agent run throws or yields no output, and 200 otherwise — and as `process.exit(1)` in
the CLI `main`, including when no argument was supplied. -/
theorem C2_failures_surface :
    (∀ v agent, JsVal.truthy v = true →
      (handleGenerateVideo v agent).2.status = if apiFailed agent then 500 else 200) ∧
    (∀ p agent, cliFailed agent = true → mainRun (some p) agent = .exitCode 1) ∧
    (∀ agent, mainRun none agent = .exitCode 1) := by
  refine ⟨?_, ?_, ?_⟩
  · intro v agent h
    rcases agent with thrown | out
    · simp [handleGenerateVideo, h, apiFailed]
    · by_cases hf : outputFalsy out = true
      · simp [handleGenerateVideo, h, apiFailed, hf]
      · rcases out with _ | o
        · simp [outputFalsy] at hf
        · simp [handleGenerateVideo, h, apiFailed, hf]
  · intro p agent h
    rcases agent with thrown | out
    · rfl
    · simp only [cliFailed] at h
      simp [mainRun, h]
  · intro agent
    rfl

/-- C2 witness: a truthy-prompt request whose agent run throws gets exactly a 500. -/
theorem C2_witness :
    (handleGenerateVideo (JsVal.strV "x") (Except.error (some "boom"))).2.status = 500 := by
  have h := C2_failures_surface.1 (JsVal.strV "x") (Except.error (some "boom")) (by decide)
  simpa using h

/-- C3: in the download loop, every clip with a uri is attempted exactly once and in
order, whether or not earlier downloads failed (no retry, no other compensation); the
saved paths are exactly the successful writes; their number is the number of attempted
clips whose download succeeds; and a run of the (server) pipeline that reaches the
download stage errors — with `noDownloads` — exactly when zero clips were downloaded,
otherwise it succeeds with the downloaded paths. -/
theorem C3_download_skip (dlOk : Nat → Bool) (time : Nat → Nat) (dir style : String)
    (vs : List (Option String)) (i c : Nat) :
    httpGets (downloadClips dlOk time dir style vs i c).1 = vs.filterMap id ∧
    writePaths (downloadClips dlOk time dir style vs i c).1 =
      (downloadClips dlOk time dir style vs i c).2.1 ∧
    (downloadClips dlOk time dir style vs i c).2.1.length =
      ((attemptedIdx vs i).filter dlOk).length ∧
    (∀ (env : GenEnv) (cwd np vp : String) (fuel : Nat) (nt ib : String)
        (pes : List Event) (k : Nat) (v : Option String) (vs2 : List (Option String))
        (des : List Event) (ps : List String) (cEnd : Nat),
      env.narrationText = some nt → ¬ sanitize nt = "" → env.imageBytes = some ib →
      pollLoop env.opDone fuel 0 = some (pes, k) → env.videos = some (v :: vs2) →
      downloadClips env.downloadOk env.time (OUTPUT_DIR cwd) style (v :: vs2) 0 0 =
        (des, ps, cEnd) →
      generateVideoServer env cwd style np vp fuel =
        some (Event.ensureDir (OUTPUT_DIR cwd) ::
              Event.llmCall "gemini-2.5-flash" [np] ::
              Event.imageCall "imagen-3.0-generate-002" vp 1 ::
              Event.videoCall ⟨"veo-2.0-generate-001", sanitize nt, ib, "image/png", "9:16", 2⟩ ::
              (pes ++ des),
              if ps = [] then .error .noDownloads else .ok (ServerResult.mk ps))) := by
  refine ⟨downloadClips_attempts dlOk time dir style vs i c,
    downloadClips_writes_eq_paths dlOk time dir style vs i c,
    downloadClips_success_count dlOk time dir style vs i c, ?_⟩
  intro env cwd np vp fuel nt ib pes k v vs2 des ps cEnd h1 h2 h3 h4 h5 h7
  exact server_run_decomp env cwd style np vp fuel nt ib pes k v vs2 des ps cEnd
    h1 h2 h3 h4 h5 h7

/-- C3 witness: when both downloads fail, both clips were still attempted (their
fetches are in the trace, with no retries and no writes) and the pipeline raises
exactly the zero-downloads error. -/
theorem C3_witness :
    generateVideoServer envAllFail "/app" "hype" "n" "v" 3 =
      some ([Event.ensureDir "/app/output",
             Event.llmCall "gemini-2.5-flash" ["n"],
             Event.imageCall "imagen-3.0-generate-002" "v" 1,
             Event.videoCall ⟨"veo-2.0-generate-001", "Go", "QUJD", "image/png", "9:16", 2⟩,
             Event.sleep 10000, Event.getOp,
             Event.httpGet "uA", Event.httpGet "uB"],
            Except.error GenError.noDownloads) := by
  have hs : sanitize "Go" = "Go" := by decide
  have h := (C3_download_skip envAllFail.downloadOk envAllFail.time (OUTPUT_DIR "/app")
      "hype" [some "uA", some "uB"] 0 0).2.2.2 envAllFail "/app" "n" "v" 3 "Go" "QUJD"
      (pollTrace 1) 1 (some "uA") [some "uB"] [Event.httpGet "uA", Event.httpGet "uB"] [] 2
      rfl (by decide) rfl (by decide) rfl (by decide)
  simpa [pollTrace, hs] using h

/-- C4: in a run in which every stage succeeds, of either variant, the external calls
occur in the claimed strict order. For the CLI variant the whole event trace is exactly
the single LLM call, then the single image-generation call and the image save, then the
single video-generation call, then the polling events, then the download events, then
the finalization events; for the server variant (which saves no image and has no
finalization stage) the trace is exactly the LLM call, then the image call, then the
video call, then the polling events, then the download events. In both variants every
returning run's trace holds exactly one LLM call, one image call and one video call,
each before the next stage's events. -/
theorem C4_sequential (env : GenEnv) (style np vp : String) (fuel : Nat)
    (nt ib : String) (pes : List Event) (k : Nat)
    (v : Option String) (vs : List (Option String))
    (des : List Event) (p : String) (ps : List String) (cEnd : Nat)
    (fes : List Event) (fr : Except GenError String)
    (h1 : env.narrationText = some nt)
    (h2 : ¬ sanitize nt = "")
    (h3 : env.imageBytes = some ib)
    (h4 : pollLoop env.opDone fuel 0 = some (pes, k))
    (h5 : env.videos = some (v :: vs))
    (h7 : downloadClips env.downloadOk env.time TEMP_DIR style (v :: vs) 0 1 =
      (des, p :: ps, cEnd))
    (h9 : finalizeVideo env.time cEnd env.ffmpegOk style (p :: ps) = (fes, fr)) :
    generateVideoScript env style np vp fuel =
      some (Event.ensureDir TEMP_DIR ::
            Event.llmCall "gemini-2.5-flash" [np] ::
            Event.imageCall "imagen-3.0-generate-002" vp 1 ::
            Event.writeFile (imagePathOf env style) (FileData.image ib) ::
            Event.videoCall ⟨"veo-2.0-generate-001", sanitize nt, ib, "image/png", "9:16", 2⟩ ::
            (pes ++ des ++ fes),
            fr.map (fun fp => ScriptResult.mk fp (imagePathOf env style))) ∧
    (∀ tr res, generateVideoScript env style np vp fuel = some (tr, res) →
      llmCalls tr = [("gemini-2.5-flash", [np])] ∧
      imageCalls tr = [("imagen-3.0-generate-002", vp, 1)] ∧
      videoCalls tr = [⟨"veo-2.0-generate-001", sanitize nt, ib, "image/png", "9:16", 2⟩]) ∧
    (∀ (cwd : String) (des2 : List Event) (ps2 : List String) (cEnd2 : Nat),
      downloadClips env.downloadOk env.time (OUTPUT_DIR cwd) style (v :: vs) 0 0 =
        (des2, ps2, cEnd2) →
      generateVideoServer env cwd style np vp fuel =
        some (Event.ensureDir (OUTPUT_DIR cwd) ::
              Event.llmCall "gemini-2.5-flash" [np] ::
              Event.imageCall "imagen-3.0-generate-002" vp 1 ::
              Event.videoCall ⟨"veo-2.0-generate-001", sanitize nt, ib, "image/png", "9:16", 2⟩ ::
              (pes ++ des2),
              if ps2 = [] then .error .noDownloads else .ok (ServerResult.mk ps2))) ∧
    (∀ cwd tr res, generateVideoServer env cwd style np vp fuel = some (tr, res) →
      llmCalls tr = [("gemini-2.5-flash", [np])] ∧
      imageCalls tr = [("imagen-3.0-generate-002", vp, 1)] ∧
      videoCalls tr = [⟨"veo-2.0-generate-001", sanitize nt, ib, "image/png", "9:16", 2⟩]) := by
  have hd := script_run_decomp env style np vp fuel nt ib pes k v vs des p ps cEnd fes fr
    h1 h2 h3 h4 h5 h7 h9
  obtain ⟨-, -, hshape, -⟩ := pollLoop_sound env.opDone fuel 0 pes k h4
  rw [Nat.sub_zero] at hshape
  have hp := pollTrace_observables k
  refine ⟨hd, ?_, ?_, ?_⟩
  · intro tr res h
    rw [hd] at h
    simp only [Option.some.injEq, Prod.mk.injEq] at h
    obtain ⟨htr, -⟩ := h
    have hdl := downloadClips_noCalls env.downloadOk env.time TEMP_DIR style (v :: vs) 0 1
    rw [h7] at hdl
    have hfin := finalizeVideo_noCalls env.time cEnd env.ffmpegOk style (p :: ps)
    rw [h9] at hfin
    subst htr
    rw [hshape]
    simp only [llmCalls, imageCalls, videoCalls] at hp hdl hfin ⊢
    simp [hp.1, hp.2.1, hp.2.2.1, hdl.1, hdl.2.1, hdl.2.2.1, hfin.1, hfin.2.1, hfin.2.2.1]
  · intro cwd des2 ps2 cEnd2 h7s
    exact server_run_decomp env cwd style np vp fuel nt ib pes k v vs des2 ps2 cEnd2
      h1 h2 h3 h4 h5 h7s
  · intro cwd tr res h
    rcases h7s : downloadClips env.downloadOk env.time (OUTPUT_DIR cwd) style (v :: vs) 0 0
      with ⟨des2, ps2, cEnd2⟩
    have hd2 := server_run_decomp env cwd style np vp fuel nt ib pes k v vs des2 ps2 cEnd2
      h1 h2 h3 h4 h5 h7s
    rw [hd2] at h
    simp only [Option.some.injEq, Prod.mk.injEq] at h
    obtain ⟨htr, -⟩ := h
    have hdl2 := downloadClips_noCalls env.downloadOk env.time (OUTPUT_DIR cwd) style
      (v :: vs) 0 0
    rw [h7s] at hdl2
    subst htr
    rw [hshape]
    simp only [llmCalls, imageCalls, videoCalls] at hp hdl2 ⊢
    simp [hp.1, hp.2.1, hp.2.2.1, hdl2.1, hdl2.2.1, hdl2.2.2.1]

/-- C4 witness: the concrete two-clip runs of both variants exhibit the full ordered
traces and the one-of-each external calls. -/
theorem C4_witness :
    (generateVideoScript envTwoClips "hype" "n" "v" 3).map
        (fun pr => (llmCalls pr.1, imageCalls pr.1, videoCalls pr.1)) =
      some ([("gemini-2.5-flash", ["n"])], [("imagen-3.0-generate-002", "v", 1)],
        [⟨"veo-2.0-generate-001", "Go", "QUJD", "image/png", "9:16", 2⟩]) ∧
    (generateVideoServer envTwoClips "/app" "hype" "n" "v" 3).map
        (fun pr => (llmCalls pr.1, imageCalls pr.1, videoCalls pr.1)) =
      some ([("gemini-2.5-flash", ["n"])], [("imagen-3.0-generate-002", "v", 1)],
        [⟨"veo-2.0-generate-001", "Go", "QUJD", "image/png", "9:16", 2⟩]) := by
  have h := C4_sequential envTwoClips "hype" "n" "v" 3 "Go" "QUJD"
      (pollTrace 1) 1 (some "uA") [some "uB"]
      [Event.httpGet "uA", Event.writeFile "/tmp/hype_video_5_1.mp4" (FileData.video "uA"),
       Event.httpGet "uB", Event.writeFile "/tmp/hype_video_5_2.mp4" (FileData.video "uB")]
      "/tmp/hype_video_5_1.mp4" ["/tmp/hype_video_5_2.mp4"] 3
      ([Event.writeFile (concatListPath "hype")
          (FileData.text (concatListContent
            ["/tmp/hype_video_5_1.mp4", "/tmp/hype_video_5_2.mp4"])),
        Event.execCmd (concatCmd (concatListPath "hype") (finalVideoPath "hype" 5))])
      (.ok "/tmp/hype_final_5.mp4")
      rfl (by decide) rfl (by decide) rfl (by decide) rfl
  obtain ⟨hrun, hcalls, hserver, hscalls⟩ := h
  have hs : sanitize "Go" = "Go" := by decide
  constructor
  · rw [hrun]
    have hc := hcalls _ _ hrun
    simp only [Option.map]
    rw [hc.1, hc.2.1, hc.2.2]
    simp [hs]
  · rcases hrun2 : generateVideoServer envTwoClips "/app" "hype" "n" "v" 3
      with _ | ⟨tr, res⟩
    · have hsome := hserver "/app"
        [Event.httpGet "uA",
         Event.writeFile "/app/output/hype_video_5_1.mp4" (FileData.video "uA"),
         Event.httpGet "uB",
         Event.writeFile "/app/output/hype_video_5_2.mp4" (FileData.video "uB")]
        ["/app/output/hype_video_5_1.mp4", "/app/output/hype_video_5_2.mp4"] 2 (by decide)
      rw [hrun2] at hsome
      simp at hsome
    · have hc := hscalls "/app" tr res hrun2
      simp only [Option.map]
      rw [hc.1, hc.2.1, hc.2.2]
      simp [hs]

/-- C6 counterexample: a request whose body carries the prompt string `""` — a string —
is answered with the 400 error object, not with generated file paths, even though the
agent run would have produced file paths; so "for every request whose body contains a
prompt string, it responds with the generated file path(s)" fails at the empty string
(which is falsy in JS). -/
theorem C6_counterexample :
    handleGenerateVideo (JsVal.strV "")
        (.ok (some (AgentOutput.files (ServerResult.mk ["/app/output/x.mp4"])))) =
      ([], HttpResponse.mk 400 (RespBody.errorObj "Prompt is required")) := by
  rfl

/-- C6 (amended): the server registers exactly one route, `POST /api/generate-video`;
for every request whose body contains a non-empty (truthy) prompt string and whose
agent run yields a truthy output, it responds 200 with that output (the generated file
paths when a generation tool ran); when the run throws it responds 500 with an error
object, when the output is falsy it responds 500 with the no-output error object, and
when the prompt is missing or falsy it responds 400 with an error object. -/
theorem C6_endpoint (v : JsVal) :
    appRoutes = [("POST", "/api/generate-video")] ∧
    (∀ o, v.truthy = true → outputFalsy (some o) = false →
      handleGenerateVideo v (.ok (some o)) =
        ([ApiEvent.runAgent v], HttpResponse.mk 200 (RespBody.jsonOut o))) ∧
    (∀ thrown, v.truthy = true →
      handleGenerateVideo v (.error thrown) =
        ([ApiEvent.runAgent v],
          HttpResponse.mk 500 (RespBody.errorObj (caughtMessage thrown)))) ∧
    (∀ out, v.truthy = true → outputFalsy out = true →
      handleGenerateVideo v (.ok out) =
        ([ApiEvent.runAgent v],
          HttpResponse.mk 500 (RespBody.errorObj "No output received from agent"))) ∧
    (v.truthy = false → ∀ agent, handleGenerateVideo v agent =
        ([], HttpResponse.mk 400 (RespBody.errorObj "Prompt is required"))) := by
  refine ⟨rfl, ?_, ?_, ?_, ?_⟩
  · intro o h hf
    simp [handleGenerateVideo, h, hf]
  · intro thrown h
    simp [handleGenerateVideo, h]
  · intro out h hf
    simp [handleGenerateVideo, h, hf]
  · intro h agent
    simp [handleGenerateVideo, h]

/-- C6 witness: a truthy prompt whose agent run returns file paths gets a 200 carrying
exactly those paths. -/
theorem C6_witness :
    handleGenerateVideo (JsVal.strV "make a promo")
        (.ok (some (AgentOutput.files (ServerResult.mk ["/app/output/a.mp4"])))) =
      ([ApiEvent.runAgent (JsVal.strV "make a promo")],
        HttpResponse.mk 200 (RespBody.jsonOut
          (AgentOutput.files (ServerResult.mk ["/app/output/a.mp4"])))) := by
  exact (C6_endpoint (JsVal.strV "make a promo")).2.1 _ (by decide) rfl

/-- C7 counterexample: the concrete two-clip CLI run writes the file
`/tmp/hype_concat_list.txt`, whose filename holds no digit at all — so no rendering of
any timestamp — refuting "no file without a timestamp in its name is ever written"
(and it is a text file, not an image or video). -/
theorem C7_counterexample :
    (generateVideoScript envTwoClips "hype" "n" "v" 3).map
        (fun pr => (writePaths pr.1).contains "/tmp/hype_concat_list.txt") = some true ∧
    ("hype_concat_list.txt").data.all (fun c => c.isDigit == false) = true := by
  exact ⟨by decide, by decide⟩

/-- C7 (amended): in a successful CLI run, every file the program writes is the
timestamped style image `<style>_image_<t>.png`, a timestamped clip
`<style>_video_<t>_<j>.mp4`, or the ffmpeg concat list `<style>_concat_list.txt`
(whose name carries no timestamp); in a successful server run, every written file is a
timestamped clip under the output directory. -/
theorem C7_file_writes (env : GenEnv) (style np vp : String) (fuel : Nat)
    (nt ib : String) (pes : List Event) (k : Nat)
    (v : Option String) (vs : List (Option String))
    (des : List Event) (p : String) (ps : List String) (cEnd : Nat)
    (fes : List Event) (fr : Except GenError String)
    (h1 : env.narrationText = some nt)
    (h2 : ¬ sanitize nt = "")
    (h3 : env.imageBytes = some ib)
    (h4 : pollLoop env.opDone fuel 0 = some (pes, k))
    (h5 : env.videos = some (v :: vs))
    (h7 : downloadClips env.downloadOk env.time TEMP_DIR style (v :: vs) 0 1 =
      (des, p :: ps, cEnd))
    (h9 : finalizeVideo env.time cEnd env.ffmpegOk style (p :: ps) = (fes, fr)) :
    (∀ tr res, generateVideoScript env style np vp fuel = some (tr, res) →
      ∀ q, q ∈ writePaths tr →
        q = imagePathOf env style ∨ ClipPath TEMP_DIR style q ∨ q = concatListPath style) ∧
    (∀ (cwd : String) (des2 : List Event) (ps2 : List String) (cEnd2 : Nat),
      downloadClips env.downloadOk env.time (OUTPUT_DIR cwd) style (v :: vs) 0 0 =
        (des2, ps2, cEnd2) →
      ∀ tr res, generateVideoServer env cwd style np vp fuel = some (tr, res) →
        ∀ q, q ∈ writePaths tr → ClipPath (OUTPUT_DIR cwd) style q) := by
  obtain ⟨-, -, hshape, -⟩ := pollLoop_sound env.opDone fuel 0 pes k h4
  rw [Nat.sub_zero] at hshape
  have hpw : writePaths pes = [] := by
    rw [hshape]
    exact (pollTrace_observables k).2.2.2.2.1
  constructor
  · have hd := script_run_decomp env style np vp fuel nt ib pes k v vs des p ps cEnd fes fr
      h1 h2 h3 h4 h5 h7 h9
    intro tr res h
    rw [hd] at h
    simp only [Option.some.injEq, Prod.mk.injEq] at h
    obtain ⟨htr, -⟩ := h
    subst htr
    have hdw : writePaths des = p :: ps := by
      have hw := downloadClips_writes_eq_paths env.downloadOk env.time TEMP_DIR style
        (v :: vs) 0 1
      rw [h7] at hw
      exact hw
    have hfw := finalizeVideo_writes env.time cEnd env.ffmpegOk style (p :: ps)
    rw [h9] at hfw
    intro q hq
    simp only [writePaths, List.filterMap_cons, List.filterMap_append] at hq
    simp only [writePaths] at hpw hdw hfw
    rw [hpw, hdw] at hq
    simp only [List.nil_append, List.mem_cons, List.mem_append] at hq
    rcases hq with hq | hq | hq
    · exact Or.inl hq
    · refine Or.inr (Or.inl ?_)
      have hsh := downloadClips_paths_shape env.downloadOk env.time TEMP_DIR style
        (v :: vs) 0 1 q
      rw [h7] at hsh
      exact hsh (List.mem_cons.mpr hq)
    · rcases hfw with hfw | hfw
      · rw [hfw] at hq
        simp at hq
      · rw [hfw] at hq
        simp only [List.mem_singleton] at hq
        exact Or.inr (Or.inr hq)
  · intro cwd des2 ps2 cEnd2 h7s tr res h
    have hd := server_run_decomp env cwd style np vp fuel nt ib pes k v vs des2 ps2 cEnd2
      h1 h2 h3 h4 h5 h7s
    rw [hd] at h
    simp only [Option.some.injEq, Prod.mk.injEq] at h
    obtain ⟨htr, -⟩ := h
    subst htr
    have hdw : writePaths des2 = ps2 := by
      have hw := downloadClips_writes_eq_paths env.downloadOk env.time (OUTPUT_DIR cwd)
        style (v :: vs) 0 0
      rw [h7s] at hw
      exact hw
    intro q hq
    simp only [writePaths, List.filterMap_cons, List.filterMap_append] at hq
    simp only [writePaths] at hpw hdw
    rw [hpw, hdw] at hq
    simp only [List.nil_append] at hq
    have hsh := downloadClips_paths_shape env.downloadOk env.time (OUTPUT_DIR cwd) style
      (v :: vs) 0 0 q
    rw [h7s] at hsh
    exact hsh hq

/-- C7 witness: in the concrete two-clip CLI run, the saved image path is one of the
three permitted write targets. -/
theorem C7_witness :
    "/tmp/hype_image_5.png" = imagePathOf envTwoClips "hype" ∨
    ClipPath TEMP_DIR "hype" "/tmp/hype_image_5.png" ∨
    "/tmp/hype_image_5.png" = concatListPath "hype" := by
  refine (C7_file_writes envTwoClips "hype" "n" "v" 3 "Go" "QUJD"
      (pollTrace 1) 1 (some "uA") [some "uB"]
      [Event.httpGet "uA", Event.writeFile "/tmp/hype_video_5_1.mp4" (FileData.video "uA"),
       Event.httpGet "uB", Event.writeFile "/tmp/hype_video_5_2.mp4" (FileData.video "uB")]
      "/tmp/hype_video_5_1.mp4" ["/tmp/hype_video_5_2.mp4"] 3
      ([Event.writeFile (concatListPath "hype")
          (FileData.text (concatListContent
            ["/tmp/hype_video_5_1.mp4", "/tmp/hype_video_5_2.mp4"])),
        Event.execCmd (concatCmd (concatListPath "hype") (finalVideoPath "hype" 5))])
      (.ok "/tmp/hype_final_5.mp4")
      rfl (by decide) rfl (by decide) rfl (by decide) rfl).1 twoClipTrace
      (.ok (ScriptResult.mk "/tmp/hype_final_5.mp4" "/tmp/hype_image_5.png")) rfl
      "/tmp/hype_image_5.png" (by decide)

/-- C8: every run of either pipeline variant that returns issued its one
video-generation request for exactly two clips (`numberOfVideos: 2`) at aspect ratio
`9:16`, with the sanitized narration as the video prompt and the generated image bytes
as a PNG seed frame — for every style and every prompt pair; nothing constrains the
response to actually carry two clips (the witness run gets only one back and still
succeeds). -/
theorem C8_video_request (env : GenEnv) (style np vp : String) (fuel : Nat)
    (nt ib : String)
    (h1 : env.narrationText = some nt)
    (h2 : ¬ sanitize nt = "")
    (h3 : env.imageBytes = some ib) :
    (∀ tr res, generateVideoScript env style np vp fuel = some (tr, res) →
      videoCalls tr = [⟨"veo-2.0-generate-001", sanitize nt, ib, "image/png", "9:16", 2⟩]) ∧
    (∀ cwd tr res, generateVideoServer env cwd style np vp fuel = some (tr, res) →
      videoCalls tr = [⟨"veo-2.0-generate-001", sanitize nt, ib, "image/png", "9:16", 2⟩]) := by
  have hn : narrationStage (some nt) = Except.ok (sanitize nt) := by
    simp [narrationStage, h2]
  constructor
  · intro tr res h
    simp only [generateVideoScript, h1, h3, hn] at h
    rcases hpoll : pollLoop env.opDone fuel 0 with _ | ⟨pes, k⟩ <;> rw [hpoll] at h
    · simp at h
    · obtain ⟨-, -, hshape, -⟩ := pollLoop_sound env.opDone fuel 0 pes k hpoll
      rw [Nat.sub_zero] at hshape
      have hpv : videoCalls pes = [] := by
        rw [hshape]
        exact (pollTrace_observables k).2.2.1
      rcases hv : env.videos with _ | vs2 <;> rw [hv] at h
      · simp only [Option.some.injEq, Prod.mk.injEq] at h
        obtain ⟨htr, -⟩ := h
        subst htr
        simp only [videoCalls, List.filterMap_cons, List.filterMap_append] at hpv ⊢
        simp [hpv]
      · rcases vs2 with _ | ⟨v, vs3⟩
        · simp only [Option.some.injEq, Prod.mk.injEq] at h
          obtain ⟨htr, -⟩ := h
          subst htr
          simp only [videoCalls, List.filterMap_cons, List.filterMap_append] at hpv ⊢
          simp [hpv]
        · rcases hdl : downloadClips env.downloadOk env.time TEMP_DIR style (v :: vs3) 0 1
            with ⟨des, ps, cEnd⟩
          simp only [hdl] at h
          have hdv : videoCalls des = [] := by
            have hc := (downloadClips_noCalls env.downloadOk env.time TEMP_DIR style
              (v :: vs3) 0 1).2.2.1
            rw [hdl] at hc
            exact hc
          by_cases hps : ps = []
          · rw [if_pos hps] at h
            simp only [Option.some.injEq, Prod.mk.injEq] at h
            obtain ⟨htr, -⟩ := h
            subst htr
            simp only [videoCalls, List.filterMap_cons, List.filterMap_append] at hpv hdv ⊢
            simp [hpv, hdv]
          · rw [if_neg hps] at h
            rcases hfin : finalizeVideo env.time cEnd env.ffmpegOk style ps with ⟨fes, fr⟩
            rw [hfin] at h
            have hfv : videoCalls fes = [] := by
              have hc := (finalizeVideo_noCalls env.time cEnd env.ffmpegOk style ps).2.2.1
              rw [hfin] at hc
              exact hc
            simp only [Option.some.injEq, Prod.mk.injEq] at h
            obtain ⟨htr, -⟩ := h
            subst htr
            simp only [videoCalls, List.filterMap_cons, List.filterMap_append] at hpv hdv hfv ⊢
            simp [hpv, hdv, hfv]
  · intro cwd tr res h
    simp only [generateVideoServer, h1, h3, hn] at h
    rcases hpoll : pollLoop env.opDone fuel 0 with _ | ⟨pes, k⟩ <;> rw [hpoll] at h
    · simp at h
    · obtain ⟨-, -, hshape, -⟩ := pollLoop_sound env.opDone fuel 0 pes k hpoll
      rw [Nat.sub_zero] at hshape
      have hpv : videoCalls pes = [] := by
        rw [hshape]
        exact (pollTrace_observables k).2.2.1
      rcases hv : env.videos with _ | vs2 <;> rw [hv] at h
      · simp only [Option.some.injEq, Prod.mk.injEq] at h
        obtain ⟨htr, -⟩ := h
        subst htr
        simp only [videoCalls, List.filterMap_cons, List.filterMap_append] at hpv ⊢
        simp [hpv]
      · rcases vs2 with _ | ⟨v, vs3⟩
        · simp only [Option.some.injEq, Prod.mk.injEq] at h
          obtain ⟨htr, -⟩ := h
          subst htr
          simp only [videoCalls, List.filterMap_cons, List.filterMap_append] at hpv ⊢
          simp [hpv]
        · rcases hdl : downloadClips env.downloadOk env.time (OUTPUT_DIR cwd) style
              (v :: vs3) 0 0 with ⟨des, ps, cEnd⟩
          simp only [hdl] at h
          have hdv : videoCalls des = [] := by
            have hc := (downloadClips_noCalls env.downloadOk env.time (OUTPUT_DIR cwd)
              style (v :: vs3) 0 0).2.2.1
            rw [hdl] at hc
            exact hc
          by_cases hps : ps = []
          · rw [if_pos hps] at h
            simp only [Option.some.injEq, Prod.mk.injEq] at h
            obtain ⟨htr, -⟩ := h
            subst htr
            simp only [videoCalls, List.filterMap_cons, List.filterMap_append] at hpv hdv ⊢
            simp [hpv, hdv]
          · rw [if_neg hps] at h
            simp only [Option.some.injEq, Prod.mk.injEq] at h
            obtain ⟨htr, -⟩ := h
            subst htr
            simp only [videoCalls, List.filterMap_cons, List.filterMap_append] at hpv hdv ⊢
            simp [hpv, hdv]

/-- C8 witness: a run in which the service returns only one clip (fewer than the two
requested) still issues the two-clip 9:16 request with the sanitized narration and the
PNG seed image, and succeeds. -/
theorem C8_witness :
    (generateVideoScript envOneClip "cinematic" "n" "v" 3).map
        (fun pr => videoCalls pr.1) =
      some [⟨"veo-2.0-generate-001", "Go", "QUJD", "image/png", "9:16", 2⟩] := by
  have hs : sanitize "Go" = "Go" := by decide
  have h := (C8_video_request envOneClip "cinematic" "n" "v" 3 "Go" "QUJD"
      rfl (by decide) rfl).1
  rcases hrun : generateVideoScript envOneClip "cinematic" "n" "v" 3 with _ | ⟨tr, res⟩
  · have hsome : (generateVideoScript envOneClip "cinematic" "n" "v" 3).isSome = true := by
      decide
    rw [hrun] at hsome
    simp at hsome
  · have hc := h tr res hrun
    simp only [Option.map]
    rw [hc, hs]

/-- C5: the polling loop sleeps a fixed 10000 ms between successive status checks and
repeats with no backoff, jitter or bound: (1) it terminates exactly when some poll
observes the operation done; (2) a terminating loop that exits at the first done index
`r` emitted one 10-second sleep and one recheck per iteration, with every earlier status
check having observed not-done; (3) for every `n` there is an operation history on which
the loop runs exactly `n` iterations, so no iteration bound or timeout exists. -/
theorem C5_polling :
    (∀ done : Nat → Bool,
      ((∃ fuel, (pollLoop done fuel 0).isSome = true) ↔ ∃ n, done n = true)) ∧
    (∀ (done : Nat → Bool) fuel k es r, pollLoop done fuel k = some (es, r) →
      es = pollTrace (r - k) ∧ sleeps es = List.replicate (r - k) 10000 ∧
      done r = true ∧ ∀ j, k ≤ j → j < r → done j = false) ∧
    (∀ n : Nat, pollLoop (fun j => j == n) n 0 = some (pollTrace n, n)) := by
  refine ⟨?_, ?_, ?_⟩
  · intro done
    constructor
    · rintro ⟨fuel, hs⟩
      rcases hrun : pollLoop done fuel 0 with _ | ⟨es, r⟩
      · rw [hrun] at hs
        simp at hs
      · obtain ⟨hd, -, -, -⟩ := pollLoop_sound done fuel 0 es r hrun
        exact ⟨r, hd⟩
    · rintro ⟨n, hn⟩
      exact ⟨n, pollLoop_complete done n 0 (by simpa using hn)⟩
  · intro done fuel k es r h
    obtain ⟨hd, hle, hshape, hmin⟩ := pollLoop_sound done fuel k es r h
    exact ⟨hshape, by rw [hshape]; exact (pollTrace_observables (r - k)).2.2.2.2.2.2.1,
      hd, hmin⟩
  · intro n
    have h := pollLoop_exact (fun j => j == n) n 0 (by
      intro j hj
      simp)
    simpa using h

/-- C5 witness: on the operation history that is done exactly at index 2, the loop
terminates after two iterations, each a fixed 10-second sleep. -/
theorem C5_witness :
    sleeps (pollTrace (2 - 0)) = List.replicate (2 - 0) 10000 := by
  exact (C5_polling.2.1 (fun j => j == 2) 2 0 (pollTrace 2) 2 rfl).2.1

/-- C9: the narration check `if (!narration) throw new Error("Failed to generate
narration text")` fires exactly when the LLM response text is absent or the sanitized
text (asterisks removed, then trimmed) is empty; otherwise the narration passed
downstream is exactly the sanitized text. -/
theorem C9_narration (t : Option String) :
    (narrationStage t = Except.error GenError.narrationFailed ↔
      t = none ∨ ∃ s, t = some s ∧ sanitize s = "") ∧
    (∀ s, t = some s → ¬ sanitize s = "" →
      narrationStage t = Except.ok (jsTrim (stripAsterisks s))) ∧
    GenError.narrationFailed.message = "Failed to generate narration text" := by
  refine ⟨?_, ?_, rfl⟩
  · cases t with
    | none => simp [narrationStage]
    | some s =>
      by_cases h : sanitize s = ""
      · simp [narrationStage, h]
      · simp [narrationStage, h]
  · intro s hs h
    subst hs
    have hok : narrationStage (some s) = Except.ok (sanitize s) := by
      simp [narrationStage, h]
    rw [hok]
    rfl

/-- C9 witness: on the response text `" *Cut.* "`, the narration is `"Cut."` — every
asterisk removed and surrounding whitespace trimmed — and no error is raised. -/
theorem C9_witness :
    narrationStage (some " *Cut.* ") = Except.ok "Cut." := by
  have h := (C9_narration (some " *Cut.* ")).2.1 " *Cut.* " rfl (by decide)
  rw [h]
  rfl

/-- C10: for every request whose `prompt` body field is missing or falsy, the handler
responds 400 with `{ error: "Prompt is required" }` and performs no agent run or
generation call (its effect trace is empty). -/
theorem C10_missing_prompt (v : JsVal)
    (agent : Except (Option String) (Option AgentOutput))
    (h : v.truthy = false) :
    handleGenerateVideo v agent =
      ([], HttpResponse.mk 400 (RespBody.errorObj "Prompt is required")) := by
  simp [handleGenerateVideo, h]

/-- C10 witness: a request body without a prompt field gets the 400 error and no agent
run, even though the agent would have succeeded. -/
theorem C10_witness :
    handleGenerateVideo JsVal.undef
        (.ok (some (AgentOutput.files (ServerResult.mk ["/app/output/x.mp4"])))) =
      ([], HttpResponse.mk 400 (RespBody.errorObj "Prompt is required")) := by
  exact C10_missing_prompt JsVal.undef _ rfl

end AiSdk
